import Mathlib

/-!
Verification development for the BiRead bilingual EPUB reader.

The definitions below are a shallow embedding of the JavaScript sources:
  - `src/lib/reader.js` (sentence splitter, chapter translation loop),
  - `src/lib/translator.js` (hash, cache keys, cache, paragraph translation),
  - `src/lib/bookTranslator.js` (full-book translation loop, EPUB export).

Strings are modelled as `List Char`. JavaScript numbers that only ever hold
32-bit integer values (the string hash) are modelled as `Int` with explicit
wrapping. `localStorage` is modelled as an association list passed
explicitly; the network call of `callAPI` is modelled as an oracle function
returning `Except TransError (List Char)`, where `TransError.aborted`
stands for the `AbortError` `DOMException` raised when the abort signal
fires during the in-flight call.
-/

namespace BiRead

/-- Whitespace predicate matching the ECMAScript `\s` class and
`String.prototype.trim`: WhiteSpace (TAB VT FF SP NBSP ZWNBSP and the
Unicode space separators) plus LineTerminator (LF CR LS PS). -/
def isJsSpace (c : Char) : Bool :=
  c.toNat = 9 || c.toNat = 10 || c.toNat = 11 || c.toNat = 12 ||
  c.toNat = 13 || c.toNat = 32 || c.toNat = 160 || c.toNat = 5760 ||
  (8192 ≤ c.toNat && c.toNat ≤ 8202) || c.toNat = 8232 || c.toNat = 8233 ||
  c.toNat = 8239 || c.toNat = 8287 || c.toNat = 12288 || c.toNat = 65279

/-- One step of trailing-whitespace removal: prepend `c` to an already
trimmed tail, dropping `c` itself when the tail is empty and `c` is
whitespace. -/
def trimEndStep (c : Char) (r : List Char) : List Char :=
  match r with
  | [] => if isJsSpace c then [] else [c]
  | _ => c :: r

/-- Drop trailing JavaScript whitespace from a list of characters. -/
def trimEnd : List Char → List Char
  | [] => []
  | c :: rest => trimEndStep c (trimEnd rest)

/-- Model of `String.prototype.trim`: drop leading and trailing whitespace. -/
def trimChars (s : List Char) : List Char :=
  trimEnd (s.dropWhile isJsSpace)

/-- Sentence-terminal punctuation set of `reader.js` `splitSentences`:
the characters of the regex class `[.!?。！？]`. -/
def isTerminator (c : Char) : Bool :=
  c = '.' || c = '!' || c = '?' || c = '。' || c = '！' || c = '？'

/-- Model of `processed.replace(/(\d+)\./g, '$1\x00')` from `splitSentences`:
every period immediately preceded by a digit is replaced by the `\x00`
placeholder (the digit run of the regex match ends right before the
period, so a period is rewritten exactly when its predecessor is a digit).
The `Bool` argument records whether the previous character was a digit. -/
def maskDigitDots : Bool → List Char → List Char
  | _, [] => []
  | prev, c :: rest =>
    if c = '.' ∧ prev = true then '\x00' :: maskDigitDots false rest
    else c :: maskDigitDots c.isDigit rest

/-- Case-insensitive character comparison used by the `gi` regex flags of
`splitSentences` (ASCII case folding). -/
def charLowerEq (a b : Char) : Bool := a.toLower = b.toLower

/-- Check whether `s` starts with the abbreviation pattern `pat`
(case-insensitively) immediately followed by a period. -/
def matchesAbbrevAt : List Char → List Char → Bool
  | [], '.' :: _ => true
  | [], _ => false
  | _ :: _, [] => false
  | pc :: pr, c :: cr => charLowerEq pc c && matchesAbbrevAt pr cr

/-- Fuel-indexed scanner for `processed.replace(new RegExp('(abbr)\\.','gi'),
'$1\x00')`: at each position, if the abbreviation followed by a period
matches, keep the matched characters (the `$1` capture), emit `\x00` in
place of the period and continue after the match; otherwise advance one
character. Fuel is the length of the scanned list, which each step
strictly consumes. -/
def maskAbbrevAux (pat : List Char) : Nat → List Char → List Char
  | 0, s => s
  | _ + 1, [] => []
  | fuel + 1, c :: rest =>
    if matchesAbbrevAt pat (c :: rest) then
      (c :: rest).take pat.length ++ '\x00' :: maskAbbrevAux pat fuel ((c :: rest).drop (pat.length + 1))
    else
      c :: maskAbbrevAux pat fuel rest

/-- Global case-insensitive replacement of one abbreviation pattern. -/
def maskAbbrev (pat : List Char) (s : List Char) : List Char :=
  maskAbbrevAux pat s.length s

/-- Abbreviation list of `splitSentences` (`'i\\.e'` and `'e\\.g'` are
regex sources whose `\\.` denotes a literal period). -/
def abbrevPatterns : List (List Char) :=
  [("Mr").data, ("Mrs").data, ("Ms").data, ("Dr").data, ("Prof").data,
   ("Sr").data, ("Jr").data, ("vs").data, ("etc").data, ("i.e").data,
   ("e.g").data, ("Vol").data, ("No").data, ("Fig").data]

/-- Model of `processed.replace(/(\d)\.([\d])/g, '$1\x00$2')`: scan left to
right; a digit-period-digit triple is rewritten with the placeholder and
all three characters are consumed (so overlapping triples as in `1.2.3`
are not rewritten twice), otherwise advance one character. -/
def maskDecimalDotsAux : Nat → List Char → List Char
  | 0, s => s
  | _ + 1, [] => []
  | fuel + 1, a :: rest =>
    match rest with
    | '.' :: b :: rest2 =>
      if a.isDigit && b.isDigit then a :: '\x00' :: b :: maskDecimalDotsAux fuel rest2
      else a :: maskDecimalDotsAux fuel rest
    | _ => a :: maskDecimalDotsAux fuel rest

/-- Global replacement of digit-period-digit triples (fuel instantiated
with the length of the scanned list, which each step strictly consumes). -/
def maskDecimalDots (s : List Char) : List Char :=
  maskDecimalDotsAux s.length s

/-- Fuel-indexed model of `processed.match(/[^.!?。！？]+[.!?。！？]+[\s]*/g)`:
collect the successive leftmost matches. At a terminator no match can
start, so the scan advances one character; otherwise the match is the
maximal non-terminator run, which must be followed by at least one
terminator (else there is no further match at all), the maximal
terminator run, and any trailing whitespace. -/
def getMatchesAux : Nat → List Char → List (List Char)
  | 0, _ => []
  | _ + 1, [] => []
  | fuel + 1, c :: rest =>
    if isTerminator c then getMatchesAux fuel rest
    else
      let pre := (c :: rest).takeWhile (fun a => !isTerminator a)
      let suf := (c :: rest).dropWhile (fun a => !isTerminator a)
      if suf.isEmpty then []
      else
        let terms := suf.takeWhile isTerminator
        let afterTerms := suf.dropWhile isTerminator
        let ws := afterTerms.takeWhile isJsSpace
        let remaining := afterTerms.dropWhile isJsSpace
        (pre ++ terms ++ ws) :: getMatchesAux fuel remaining

/-- Regex match list for the sentence splitter. -/
def getMatches (s : List Char) : List (List Char) :=
  getMatchesAux s.length s

/-- Model of `s.replace(/\x00/g, '.')`: restore masked periods. -/
def restoreDots (s : List Char) : List Char :=
  s.map (fun c => if c = '\x00' then '.' else c)

/-- Shallow embedding of `splitSentences` from `src/lib/reader.js`:
empty or whitespace-only text yields no sentences; text whose trimmed
length is under 80 characters is returned whole; otherwise numbered-list
periods, abbreviation periods and decimal points are masked, the text is
split on terminal-punctuation runs, placeholders are restored, empty
pieces are dropped, and any trailing remainder after the last match is
appended as a final sentence. -/
def splitSentences (text : List Char) : List (List Char) :=
  if (trimChars text).isEmpty then []
  else
    let trimmed := trimChars text
    if trimmed.length < 80 then [trimmed]
    else
      let p1 := maskDigitDots false trimmed
      let p2 := abbrevPatterns.foldl (fun acc pat => maskAbbrev pat acc) p1
      let p3 := maskDecimalDots p2
      let parts := getMatches p3
      if parts.isEmpty then [trimmed]
      else
        let sentences := (parts.map (fun s => trimChars (restoreDots s))).filter
          (fun s => 0 < s.length)
        let joinedLength := parts.flatten.length
        let remainder := trimChars (restoreDots (p3.drop joinedLength))
        if remainder.isEmpty then sentences else sentences ++ [remainder]

/-! The translation cache of `src/lib/translator.js`. -/

/-- Wrap an integer to the signed 32-bit range, as the JavaScript `|0` and
`<<` operators do. -/
def toInt32 (n : Int) : Int := (n + 2 ^ 31) % 2 ^ 32 - 2 ^ 31

/-- UTF-16 code units of a character, matching `String.prototype.charCodeAt`
(characters beyond the basic multilingual plane occupy a surrogate pair). -/
def utf16Units (c : Char) : List Nat :=
  if c.toNat < 65536 then [c.toNat]
  else [55296 + (c.toNat - 65536) / 1024, 56320 + (c.toNat - 65536) % 1024]

/-- One step of the `hashString` loop of `translator.js`:
`hash = ((hash << 5) - hash) + charCode; hash |= 0`. The shift is itself a
32-bit operation, and the subtraction and addition are exact before the
final truncation. -/
def hashStep (h : Int) (code : Nat) : Int :=
  toInt32 (toInt32 (h * 32) - h + (code : Int))

/-- Accumulated 32-bit hash value of `hashString`. -/
def hashInt (s : List Char) : Int :=
  ((s.map utf16Units).flatten).foldl hashStep 0

/-- Digit characters of `Number.prototype.toString(36)`: `0`-`9` then `a`-`z`. -/
def base36Digit (n : Nat) : Char :=
  if n < 10 then Char.ofNat (48 + n) else Char.ofNat (87 + n)

/-- Fuel-indexed base-36 digit accumulator (fuel bounds the digit count). -/
def natToBase36Aux : Nat → Nat → List Char → List Char
  | 0, _, acc => acc
  | fuel + 1, n, acc =>
    if n = 0 then acc
    else natToBase36Aux fuel (n / 36) (base36Digit (n % 36) :: acc)

/-- Base-36 rendering of a natural number. -/
def natToBase36 (n : Nat) : List Char :=
  if n = 0 then [Char.ofNat 48] else natToBase36Aux n n []

/-- Model of `Number.prototype.toString(36)` on 32-bit integer values:
a minus sign followed by the base-36 digits of the absolute value. -/
def intToBase36 (i : Int) : List Char :=
  if i < 0 then '-' :: natToBase36 i.natAbs else natToBase36 i.toNat

/-- Shallow embedding of `hashString` from `src/lib/translator.js`. -/
def hashString (s : List Char) : List Char := intToBase36 (hashInt s)

/-- Decimal rendering of a natural number, as template-literal interpolation
of a JavaScript number produces. -/
def natStr (n : Nat) : List Char := (Nat.repr n).data

/-- Active engine configuration as read by `getActiveConfig` (only the
fields the translator core consults are modelled). -/
structure Config where
  apiKey : List Char
  model : List Char
  deriving DecidableEq

/-- Model of `localStorage` as an association list; the most recent
`setItem` for a key shadows older entries. -/
abbrev Store := List (List Char × List Char)

/-- Model of `localStorage.getItem`. -/
def storeGet : Store → List Char → Option (List Char)
  | [], _ => none
  | (k, v) :: rest, key => if k = key then some v else storeGet rest key

/-- Model of `localStorage.setItem`. -/
def storeSet (st : Store) (key val : List Char) : Store := (key, val) :: st

/-- Shallow embedding of `getCacheKey` from `src/lib/translator.js`:
`biread_cache_` then the book-id hash, the chapter index, the paragraph
identifier (a number, or `p_s` for sentence-level calls) and the hash of
the active model, joined by underscores. -/
def getCacheKey (cfg : Config) (bookId : List Char) (chapterIndex : Nat)
    (paraId : List Char) : List Char :=
  ("biread_cache_").data ++ hashString bookId ++ ("_").data ++
    natStr chapterIndex ++ ("_").data ++ paraId ++ ("_").data ++
    hashString cfg.model

/-- Shallow embedding of `getFromCache` from `src/lib/translator.js`. -/
def getFromCache (cfg : Config) (st : Store) (bookId : List Char)
    (chapterIndex : Nat) (paraId : List Char) : Option (List Char) :=
  storeGet st (getCacheKey cfg bookId chapterIndex paraId)

/-- Shallow embedding of `saveToCache` from `src/lib/translator.js`. The
`writeOk` flag models whether `localStorage.setItem` succeeds; when it
throws (storage full) the error is swallowed and the store is unchanged. -/
def saveToCache (writeOk : Bool) (cfg : Config) (st : Store)
    (bookId : List Char) (chapterIndex : Nat) (paraId : List Char)
    (translation : List Char) : Store :=
  if writeOk then storeSet st (getCacheKey cfg bookId chapterIndex paraId) translation
  else st

/-! The paragraph translator of `src/lib/translator.js`. -/

/-- Errors a translation attempt can raise: the configuration error thrown
before any network attempt, a provider failure carrying a message
(`callAPI` non-ok responses and malformed payloads), and the `AbortError`
raised when the cancellation signal fires during the call. -/
inductive TransError where
  | config : TransError
  | provider : List Char → TransError
  | aborted : TransError
  deriving DecidableEq

/-- Message text of an error (`err.message` in the JavaScript sources). -/
def TransError.message : TransError → List Char
  | .config => ("请先在设置中配置 API Key 和模型").data
  | .provider m => m
  | .aborted => ("Translation cancelled").data

/-- Shallow embedding of `translateParagraph` from `src/lib/translator.js`.
The oracle `api` stands for `callAPI` on the given text (an external HTTP
round trip); the store is threaded explicitly. Very short text is
returned untranslated; a truthy (non-empty) cached value is returned
without a call; a missing API key or model raises the configuration error
before any call; a successful call is written through to the cache (the
write silently doing nothing when `writeOk` is false). -/
def translateParagraph (api : List Char → Except TransError (List Char))
    (cfg : Config) (st : Store) (writeOk : Bool) (text bookId : List Char)
    (chapterIndex : Nat) (paraId : List Char) :
    Except TransError (List Char × Store) :=
  if (trimChars text).length < 3 then .ok (trimChars text, st)
  else
    match storeGet st (getCacheKey cfg bookId chapterIndex paraId) with
    | some (c :: cs) => .ok (c :: cs, st)
    | _ =>
      if cfg.apiKey = [] ∨ cfg.model = [] then .error TransError.config
      else
        match api (trimChars text) with
        | .error e => .error e
        | .ok translation =>
          .ok (translation, saveToCache writeOk cfg st bookId chapterIndex paraId translation)

/-! The chapter translation loop of `src/lib/reader.js`. -/

/-- Rendered sentence element (`.bi-sentence`) of the reader: its data
indices, the text content of its `.bi-original` child, an attached
`.bi-translation` child if present, and an attached `.bi-error` child. -/
structure SentenceEl where
  pindex : Nat
  sindex : Nat
  origText : List Char
  translation : Option (List Char)
  errorMsg : Option (List Char)
  deriving DecidableEq

/-- Sentence-level cache identifier `pIndex_sIndex` used by the reader. -/
def cacheIdOf (p s : Nat) : List Char := natStr p ++ ("_").data ++ natStr s

/-- Shallow embedding of the loop of `translateCurrentChapter` from
`src/lib/reader.js`. `apiAt p s` is the `callAPI` oracle for the sentence
with indices `(p, s)`; `abortAtTop i` models `signal.aborted` observed at
the top of iteration `i` (an externally fired cancellation); the result is
the rewritten element list, the final store, the list of
`onProgress(translatedCount, total)` calls in order, and the final count.
Already-translated elements count and report progress; elements whose
trimmed text is under 3 characters count but do not report progress; an
`AbortError` from the call breaks out of the loop; any other error is
rendered as an inline `.bi-error` marker and the loop continues. -/
def translateChapterLoop (apiAt : Nat → Nat → List Char → Except TransError (List Char))
    (cfg : Config) (writeOk : Bool) (bookId : List Char) (chIdx : Nat)
    (abortAtTop : Nat → Bool) (total : Nat) :
    Store → Nat → List SentenceEl → List SentenceEl × Store × List (Nat × Nat) × Nat
  | st, count, [] => ([], st, [], count)
  | st, count, el :: rest =>
    if abortAtTop count then (el :: rest, st, [], count)
    else if el.translation.isSome then
      let r := translateChapterLoop apiAt cfg writeOk bookId chIdx abortAtTop total st (count + 1) rest
      (el :: r.1, r.2.1, (count + 1, total) :: r.2.2.1, r.2.2.2)
    else if (trimChars el.origText).length < 3 then
      let r := translateChapterLoop apiAt cfg writeOk bookId chIdx abortAtTop total st (count + 1) rest
      (el :: r.1, r.2.1, r.2.2.1, r.2.2.2)
    else
      match translateParagraph (apiAt el.pindex el.sindex) cfg st writeOk
        (trimChars el.origText) bookId chIdx (cacheIdOf el.pindex el.sindex) with
      | .ok (t, st2) =>
        let r := translateChapterLoop apiAt cfg writeOk bookId chIdx abortAtTop total st2 (count + 1) rest
        ({ el with translation := some t, errorMsg := none } :: r.1,
          r.2.1, (count + 1, total) :: r.2.2.1, r.2.2.2)
      | .error .aborted => (el :: rest, st, [], count)
      | .error e =>
        let r := translateChapterLoop apiAt cfg writeOk bookId chIdx abortAtTop total st (count + 1) rest
        ({ el with errorMsg := some (("翻译失败: ").data ++ e.message) } :: r.1,
          r.2.1, (count + 1, total) :: r.2.2.1, r.2.2.2)

/-! The full-book translation loop of `src/lib/bookTranslator.js`. -/

/-- Extracted chapter paragraph as produced by the EPUB parser:
plain text, original markup, tag name, and whether it is an image unit. -/
structure Para where
  html : List Char
  text : List Char
  tag : List Char
  isImage : Bool
  deriving DecidableEq

/-- Bilingual paragraph record accumulated by `translateFullBook`. -/
structure BiPara where
  original : List Char
  translation : Option (List Char)
  isImage : Bool
  tag : Option (List Char)
  deriving DecidableEq

/-- Inline failure marker `[翻译失败: ${err.message}]` substituted for a
paragraph translation when the call fails with a non-cancellation error. -/
def failMarker (e : TransError) : List Char :=
  ("[翻译失败: ").data ++ e.message ++ ("]").data

/-- Shallow embedding of the paragraph loop of `translateFullBook` from
`src/lib/bookTranslator.js` (one chapter). `apiAt pi` is the `callAPI`
oracle for paragraph `pi`; `parAborted pi` models `signal.aborted`
observed before paragraph `pi`. Image and very short paragraphs pass
through untranslated; an `AbortError` aborts the whole run; any other
error from a paragraph is replaced by the inline failure marker and the
loop continues. -/
def translateChapterParas (apiAt : Nat → List Char → Except TransError (List Char))
    (cfg : Config) (writeOk : Bool) (bookId : List Char) (chIdx : Nat)
    (parAborted : Nat → Bool) :
    Store → Nat → List Para → Except TransError (List BiPara × Store)
  | st, _, [] => .ok ([], st)
  | st, pi, p :: rest =>
    if parAborted pi then .error TransError.aborted
    else if p.isImage then
      match translateChapterParas apiAt cfg writeOk bookId chIdx parAborted st (pi + 1) rest with
      | .ok (l, st2) => .ok (⟨p.html, none, true, none⟩ :: l, st2)
      | .error e => .error e
    else if (trimChars p.text).length < 3 then
      match translateChapterParas apiAt cfg writeOk bookId chIdx parAborted st (pi + 1) rest with
      | .ok (l, st2) => .ok (⟨p.html, none, false, none⟩ :: l, st2)
      | .error e => .error e
    else
      match translateParagraph (apiAt pi) cfg st writeOk p.text bookId chIdx (natStr pi) with
      | .ok (t, st2) =>
        match translateChapterParas apiAt cfg writeOk bookId chIdx parAborted st2 (pi + 1) rest with
        | .ok (l, st3) => .ok (⟨p.html, some t, false, some p.tag⟩ :: l, st3)
        | .error e => .error e
      | .error TransError.aborted => .error TransError.aborted
      | .error e =>
        match translateChapterParas apiAt cfg writeOk bookId chIdx parAborted st (pi + 1) rest with
        | .ok (l, st3) => .ok (⟨p.html, some (failMarker e), false, some p.tag⟩ :: l, st3)
        | .error e2 => .error e2

/-! The EPUB exporter of `src/lib/bookTranslator.js`. -/

/-- Chapter of the bilingual book handed to `buildBilingualEPUB`. -/
structure BiChapter where
  title : List Char
  paragraphs : List BiPara
  deriving DecidableEq

/-- Entry of the produced zip container; `store` records whether the entry
is stored uncompressed (`compression: 'STORE'`). -/
structure ZipEntry where
  path : List Char
  content : List Char
  store : Bool
  deriving DecidableEq

/-- Global single-character replacement, modelling `replace(/c/g, rep)`. -/
def replaceChar (c : Char) (rep : List Char) : List Char → List Char
  | [] => []
  | a :: rest => (if a = c then rep else [a]) ++ replaceChar c rep rest

/-- Shallow embedding of `escapeXml` from `src/lib/bookTranslator.js`:
sequential global replacement of ampersand, less-than, greater-than and
double quote, in that order. -/
def escapeXml (s : List Char) : List Char :=
  replaceChar '"' (("&quot;").data)
    (replaceChar '>' (("&gt;").data)
      (replaceChar '<' (("&lt;").data)
        (replaceChar '&' (("&amp;").data) s)))

/-- Entity for one character. Modelled from the spec: All text interpolated
into XML/XHTML attributes or text nodes must be escaped for `& < > "` --
each of the four characters is replaced by its entity, all others are kept. -/
def xmlEntityOf (c : Char) : List Char :=
  if c = '&' then ("&amp;").data
  else if c = '<' then ("&lt;").data
  else if c = '>' then ("&gt;").data
  else if c = '"' then ("&quot;").data
  else [c]

/-- Specification-side escaping function: one simultaneous pass replacing
each of the four special characters by its entity. Used only to compare
`escapeXml` against the spec sentence. -/
def escapeXmlSpec (s : List Char) : List Char := (s.map xmlEntityOf).flatten

/-- Content of the `META-INF/container.xml` entry. -/
def containerXml : List Char :=
  ("<?xml version=\"1.0\" encoding=\"UTF-8\"?>\n<container version=\"1.0\" xmlns=\"urn:oasis:names:tc:opendocument:xmlns:container\">\n  <rootfiles>\n    <rootfile full-path=\"OEBPS/content.opf\" media-type=\"application/oebps-package+xml\" />\n  </rootfiles>\n</container>").data

/-- Content of the `OEBPS/style.css` entry. -/
def cssContent : List Char :=
  ("\nbody \x7b\n  font-family: \x27PingFang SC\x27, \x27Microsoft YaHei\x27, \x27Noto Serif SC\x27, serif;\n  line-height: 1.8;\n  margin: 1rem;\n  color: #333;\n\x7d\n.bi-block \x7b margin-bottom: 1.5em; \x7d\n.bi-original \x7b margin-bottom: 0.3em; \x7d\n.bi-trans \x7b\n  padding-left: 1em;\n  border-left: 3px solid #6366f1;\n  color: #1e293b;\n  font-weight: 500;\n  margin-bottom: 0.5em;\n\x7d\nh1, h2, h3, h4 \x7b margin: 1.2em 0 0.5em; \x7d\n").data

/-- Bilingual block emitted for a paragraph with a truthy translation. -/
def biBlock (original t : List Char) : List Char :=
  ("<div class=\"bi-block\">\n  <div class=\"bi-original\">").data ++ original ++
    ("</div>\n  <div class=\"bi-trans\">").data ++ escapeXml t ++
    ("</div>\n</div>\n").data

/-- Chapter body assembly of `buildBilingualEPUB`: images and paragraphs
without a truthy translation pass their markup through followed by a
newline; translated paragraphs produce the bilingual block. -/
def bodyOf : List BiPara → List Char
  | [] => []
  | p :: rest =>
    (if p.isImage then p.original ++ ['\n']
     else
       match p.translation with
       | some (c :: cs) => biBlock p.original (c :: cs)
       | _ => p.original ++ ['\n']) ++ bodyOf rest

/-- Chapter XHTML document of `buildBilingualEPUB`. -/
def chapterXhtml (ch : BiChapter) : List Char :=
  ("<?xml version=\"1.0\" encoding=\"UTF-8\"?>\n<!DOCTYPE html>\n<html xmlns=\"http://www.w3.org/1999/xhtml\" lang=\"zh\">\n<head>\n  <meta charset=\"UTF-8\" />\n  <title>").data ++
    escapeXml ch.title ++
    ("</title>\n  <link rel=\"stylesheet\" type=\"text/css\" href=\"style.css\" />\n</head>\n<body>\n").data ++
    bodyOf ch.paragraphs ++ ("\n</body>\n</html>").data

/-- Per-chapter file record collected by `buildBilingualEPUB`. -/
structure ChapterFile where
  id : List Char
  filename : List Char
  title : List Char
  deriving DecidableEq

/-- Zero-padding to three characters, as `idx.toString().padStart(3, '0')`. -/
def pad3 (n : Nat) : List Char :=
  if (natStr n).length < 3 then List.replicate (3 - (natStr n).length) '0' ++ natStr n
  else natStr n

/-- Chapter file records, one per chapter in order. -/
def chapterFiles (chs : List BiChapter) : List ChapterFile :=
  chs.enum.map (fun p =>
    ⟨("ch").data ++ natStr p.1, ("chapter_").data ++ pad3 p.1 ++ (".xhtml").data, p.2.title⟩)

/-- Manifest item line for one chapter file. -/
def manifestItemLine (f : ChapterFile) : List Char :=
  ("    <item id=\"").data ++ f.id ++ ("\" href=\"").data ++ f.filename ++
    ("\" media-type=\"application/xhtml+xml\" />").data

/-- Spine itemref line for one chapter file. -/
def spineItemLine (f : ChapterFile) : List Char :=
  ("    <itemref idref=\"").data ++ f.id ++ ("\" />").data

/-- Navigation list item line for one chapter file. -/
def tocItemLine (f : ChapterFile) : List Char :=
  ("      <li><a href=\"").data ++ f.filename ++ ("\">").data ++
    escapeXml f.title ++ ("</a></li>").data

/-- Manifest item of the navigation document in `content.opf`. -/
def navItemLine : List Char :=
  ("    <item id=\"toc\" href=\"toc.xhtml\" media-type=\"application/xhtml+xml\" properties=\"nav\" />").data

/-- Package document `OEBPS/content.opf` of `buildBilingualEPUB`. The clock
reads `Date.now()` and the truncated ISO timestamp are passed in as
`nowMs` and `isoStamp`. -/
def opfContent (title : List Char) (chs : List BiChapter) (nowMs : Nat)
    (isoStamp : List Char) : List Char :=
  ("<?xml version=\"1.0\" encoding=\"UTF-8\"?>\n<package xmlns=\"http://www.idpf.org/2007/opf\" version=\"3.0\" unique-identifier=\"uid\">\n  <metadata xmlns:dc=\"http://purl.org/dc/elements/1.1/\">\n    <dc:identifier id=\"uid\">biread-").data ++
    natStr nowMs ++
    ("</dc:identifier>\n    <dc:title>").data ++ escapeXml title ++
    (" (双语版)</dc:title>\n    <dc:language>zh</dc:language>\n    <dc:creator>BiRead Translation</dc:creator>\n    <meta property=\"dcterms:modified\">").data ++
    isoStamp ++
    ("Z</meta>\n  </metadata>\n  <manifest>\n    <item id=\"css\" href=\"style.css\" media-type=\"text/css\" />\n").data ++
    navItemLine ++ ("\n").data ++
    List.intercalate (("\n").data) ((chapterFiles chs).map manifestItemLine) ++
    ("\n  </manifest>\n  <spine>\n").data ++
    List.intercalate (("\n").data) ((chapterFiles chs).map spineItemLine) ++
    ("\n  </spine>\n</package>").data

/-- Navigation document `OEBPS/toc.xhtml` of `buildBilingualEPUB`. -/
def tocXhtml (chs : List BiChapter) : List Char :=
  ("<?xml version=\"1.0\" encoding=\"UTF-8\"?>\n<!DOCTYPE html>\n<html xmlns=\"http://www.w3.org/1999/xhtml\" xmlns:epub=\"http://www.idpf.org/2007/ops\" lang=\"zh\">\n<head>\n  <meta charset=\"UTF-8\" />\n  <title>目录</title>\n</head>\n<body>\n  <nav epub:type=\"toc\">\n    <h1>目录</h1>\n    <ol>\n").data ++
    List.intercalate (("\n").data) ((chapterFiles chs).map tocItemLine) ++
    ("\n    </ol>\n  </nav>\n</body>\n</html>").data

/-- Shallow embedding of `buildBilingualEPUB` from
`src/lib/bookTranslator.js`: the produced zip container as its list of
entries in creation order. The `mimetype` entry comes first and is the
only one stored uncompressed. -/
def buildBilingualEPUB (title : List Char) (chapters : List BiChapter)
    (nowMs : Nat) (isoStamp : List Char) : List ZipEntry :=
  ⟨("mimetype").data, ("application/epub+zip").data, true⟩ ::
  ⟨("META-INF/container.xml").data, containerXml, false⟩ ::
  ⟨("OEBPS/style.css").data, cssContent, false⟩ ::
  (chapters.enum.map (fun p =>
    (⟨("OEBPS/chapter_").data ++ pad3 p.1 ++ (".xhtml").data, chapterXhtml p.2, false⟩ : ZipEntry))) ++
  [⟨("OEBPS/content.opf").data, opfContent title chapters nowMs isoStamp, false⟩,
   ⟨("OEBPS/toc.xhtml").data, tocXhtml chapters, false⟩]

/-! Concrete fixtures used by the witness theorems. -/

/-- Oracle for a five-unit chapter run in which the call for the unit with
sentence index 2 (the third unit) fails with a provider error and every
other call succeeds. -/
def apiFive : Nat → Nat → List Char → Except TransError (List Char) :=
  fun _ s _ =>
    if s = 2 then Except.error (TransError.provider (("boom").data))
    else Except.ok (("译文").data)

/-- Five untranslated sentence elements, all long enough to be translated. -/
def elsFive : List SentenceEl :=
  [⟨0, 0, ("The first sentence is here.").data, none, none⟩,
   ⟨0, 1, ("The second sentence is here.").data, none, none⟩,
   ⟨0, 2, ("The third sentence is here.").data, none, none⟩,
   ⟨0, 3, ("The fourth sentence is here.").data, none, none⟩,
   ⟨0, 4, ("The fifth sentence is here.").data, none, none⟩]

/-- Oracle for a book-chapter run whose paragraph 0 fails with a provider
error while every other paragraph succeeds. -/
def apiBook : Nat → List Char → Except TransError (List Char) :=
  fun i _ =>
    if i = 0 then Except.error (TransError.provider (("offline").data))
    else Except.ok (("译文").data)

/-- Two extracted text paragraphs for the book-chapter witness. -/
def parasTwo : List Para :=
  [⟨("<p>First paragraph.</p>").data, ("First paragraph.").data, ("p").data, false⟩,
   ⟨("<p>Second paragraph.</p>").data, ("Second paragraph.").data, ("p").data, false⟩]

/-! Helper lemmas. -/

/-- Dropping trailing whitespace is idempotent. -/
theorem trimEnd_idem (l : List Char) : trimEnd (trimEnd l) = trimEnd l := by
  induction l with
  | nil => rfl
  | cons c rest ih =>
    cases h : trimEnd rest with
    | nil =>
      have hstep : trimEnd (c :: rest) = if isJsSpace c then [] else [c] := by
        rw [show trimEnd (c :: rest) = trimEndStep c (trimEnd rest) from rfl, h]
        rfl
      rw [hstep]
      by_cases hc : isJsSpace c
      · simp [hc, trimEnd]
      · simp [hc, trimEnd, trimEndStep]
    | cons a as =>
      have hstep : trimEnd (c :: rest) = c :: a :: as := by
        rw [show trimEnd (c :: rest) = trimEndStep c (trimEnd rest) from rfl, h]
        rfl
      rw [h] at ih
      rw [hstep]
      calc trimEnd (c :: a :: as) = trimEndStep c (trimEnd (a :: as)) := rfl
        _ = trimEndStep c (a :: as) := by rw [ih]
        _ = c :: a :: as := rfl

/-- Dropping trailing whitespace keeps the head character (or empties the
list). -/
theorem trimEnd_head (l : List Char) :
    trimEnd l = [] ∨ (trimEnd l).head? = l.head? := by
  cases l with
  | nil => exact Or.inl rfl
  | cons c rest =>
    rw [show trimEnd (c :: rest) = trimEndStep c (trimEnd rest) from rfl]
    cases trimEnd rest with
    | nil =>
      by_cases hc : isJsSpace c
      · exact Or.inl (by simp [trimEndStep, hc])
      · exact Or.inr (by simp [trimEndStep, hc])
    | cons a as => exact Or.inr rfl

/-- Head of a `dropWhile` result does not satisfy the dropped predicate. -/
theorem head_dropWhile_false (p : Char → Bool) (l : List Char) :
    ∀ c, (l.dropWhile p).head? = some c → p c = false := by
  induction l with
  | nil => intro c h; simp [List.dropWhile] at h
  | cons a rest ih =>
    intro c h
    rw [List.dropWhile_cons] at h
    by_cases ha : p a
    · exact ih c (by simpa [ha] using h)
    · simp [ha] at h
      subst h
      simpa using ha

/-- Trimming with `trimChars` is idempotent, as `String.prototype.trim` is. -/
theorem trimChars_idem (s : List Char) : trimChars (trimChars s) = trimChars s := by
  unfold trimChars
  have hdrop : (trimEnd (List.dropWhile isJsSpace s)).dropWhile isJsSpace
      = trimEnd (List.dropWhile isJsSpace s) := by
    cases h : trimEnd (List.dropWhile isJsSpace s) with
    | nil => rfl
    | cons a as =>
      rcases trimEnd_head (List.dropWhile isJsSpace s) with h0 | h0
      · rw [h0] at h; cases h
      · rw [h] at h0
        have ha : isJsSpace a = false :=
          head_dropWhile_false isJsSpace s a (by rw [← h0]; rfl)
        simp [List.dropWhile_cons, ha]
  rw [hdrop, trimEnd_idem]

/-- Errors of `translateParagraph` are either the configuration error or
exactly the error returned by the underlying `callAPI` oracle. -/
theorem translateParagraph_err {api : List Char → Except TransError (List Char)}
    {cfg : Config} {st : Store} {w : Bool} {text bookId : List Char}
    {chIdx : Nat} {paraId : List Char} {e : TransError}
    (h : translateParagraph api cfg st w text bookId chIdx paraId = .error e) :
    e = TransError.config ∨ api (trimChars text) = .error e := by
  unfold translateParagraph at h
  by_cases h3 : (trimChars text).length < 3
  · simp [h3] at h
  · rw [if_neg h3] at h
    cases hsg : storeGet st (getCacheKey cfg bookId chIdx paraId) with
    | some v =>
      cases v with
      | nil =>
        rw [hsg] at h
        by_cases hcfg : cfg.apiKey = [] ∨ cfg.model = []
        · simp only [hcfg, if_true] at h
          exact Or.inl (by cases h; rfl)
        · simp only [hcfg, if_false] at h
          cases hapi : api (trimChars text) with
          | error e2 =>
            rw [hapi] at h
            simp only [Except.error.injEq] at h
            subst h
            exact Or.inr rfl
          | ok t => rw [hapi] at h; simp at h
      | cons c cs => rw [hsg] at h; cases h
    | none =>
      rw [hsg] at h
      by_cases hcfg : cfg.apiKey = [] ∨ cfg.model = []
      · simp only [hcfg, if_true] at h
        exact Or.inl (by cases h; rfl)
      · simp only [hcfg, if_false] at h
        cases hapi : api (trimChars text) with
        | error e2 =>
          rw [hapi] at h
          simp only [Except.error.injEq] at h
          subst h
          exact Or.inr rfl
        | ok t => rw [hapi] at h; simp at h

/-- Computation lemma: with long-enough text, a cache miss and a usable
configuration, `translateParagraph` returns the oracle's translation and
writes it through the cache. -/
theorem translateParagraph_ok_eq {api : List Char → Except TransError (List Char)}
    {cfg : Config} {st : Store} {w : Bool} {text bookId : List Char}
    {chIdx : Nat} {paraId : List Char} {t : List Char}
    (h3 : 3 ≤ (trimChars text).length)
    (hmiss : storeGet st (getCacheKey cfg bookId chIdx paraId) = none)
    (hk : cfg.apiKey ≠ []) (hm : cfg.model ≠ [])
    (hapi : api (trimChars text) = .ok t) :
    translateParagraph api cfg st w text bookId chIdx paraId
      = .ok (t, saveToCache w cfg st bookId chIdx paraId t) := by
  unfold translateParagraph
  rw [if_neg (by omega), hmiss]
  have hcfg : ¬(cfg.apiKey = [] ∨ cfg.model = []) := by
    intro hc; rcases hc with hc | hc
    · exact hk hc
    · exact hm hc
  simp only [hcfg, if_false, hapi]

/-- Computation lemma: with long-enough text, a cache miss and a usable
configuration, `translateParagraph` propagates the oracle's error. -/
theorem translateParagraph_err_eq {api : List Char → Except TransError (List Char)}
    {cfg : Config} {st : Store} {w : Bool} {text bookId : List Char}
    {chIdx : Nat} {paraId : List Char} {e : TransError}
    (h3 : 3 ≤ (trimChars text).length)
    (hmiss : storeGet st (getCacheKey cfg bookId chIdx paraId) = none)
    (hk : cfg.apiKey ≠ []) (hm : cfg.model ≠ [])
    (hapi : api (trimChars text) = .error e) :
    translateParagraph api cfg st w text bookId chIdx paraId = .error e := by
  unfold translateParagraph
  rw [if_neg (by omega), hmiss]
  have hcfg : ¬(cfg.apiKey = [] ∨ cfg.model = []) := by
    intro hc; rcases hc with hc | hc
    · exact hk hc
    · exact hm hc
  simp only [hcfg, if_false, hapi]

/-- Shifting lemma for the expected progress-event list. -/
theorem progress_range_succ (count total n : Nat) :
    (List.range (n + 1)).map (fun i => (count + 1 + i, total))
    = (count + 1, total) :: (List.range n).map (fun i => (count + 1 + 1 + i, total)) := by
  rw [List.range_succ_eq_map, List.map_cons, List.map_map]
  congr 1
  apply List.map_congr_left
  intro a _
  show (count + 1 + (a + 1), total) = (count + 1 + 1 + a, total)
  congr 1
  omega

/-- Structural description of a chapter-loop run that is never cancelled and
contains no too-short units: the element list keeps its length, exactly one
progress event is reported per element with consecutive counts, and a
failure marker appears on an output element only if that element's own
translation attempt failed (configuration error or an error of its call). -/
theorem translateChapterLoop_complete
    (apiAt : Nat → Nat → List Char → Except TransError (List Char))
    (cfg : Config) (writeOk : Bool) (bookId : List Char) (chIdx : Nat)
    (abortAtTop : Nat → Bool) (total : Nat)
    (htop : ∀ i, abortAtTop i = false) :
    ∀ (els : List SentenceEl) (st : Store) (count : Nat),
    (∀ el ∈ els, 3 ≤ (trimChars el.origText).length) →
    (∀ el ∈ els, ∀ s, apiAt el.pindex el.sindex s ≠ .error TransError.aborted) →
    (translateChapterLoop apiAt cfg writeOk bookId chIdx abortAtTop total st count els).1.length = els.length
    ∧ (translateChapterLoop apiAt cfg writeOk bookId chIdx abortAtTop total st count els).2.2.1
        = (List.range els.length).map (fun i => (count + 1 + i, total))
    ∧ ∀ pr ∈ els.zip (translateChapterLoop apiAt cfg writeOk bookId chIdx abortAtTop total st count els).1,
        pr.1.errorMsg = none → pr.2.errorMsg ≠ none →
        ∃ e, (e = TransError.config
              ∨ apiAt pr.1.pindex pr.1.sindex (trimChars pr.1.origText) = .error e)
          ∧ pr.2.errorMsg = some (("翻译失败: ").data ++ TransError.message e) := by
  intro els
  induction els with
  | nil =>
    intro st count _ _
    refine ⟨rfl, rfl, ?_⟩
    intro pr hpr
    simp at hpr
  | cons el rest ih =>
    intro st count hlen hnoab
    have hlen0 : 3 ≤ (trimChars el.origText).length := hlen el (by simp)
    have hlenR : ∀ e ∈ rest, 3 ≤ (trimChars e.origText).length :=
      fun e he => hlen e (by simp [he])
    have hnoab0 : ∀ s, apiAt el.pindex el.sindex s ≠ .error TransError.aborted :=
      fun s => hnoab el (by simp) s
    have hnoabR : ∀ e ∈ rest, ∀ s, apiAt e.pindex e.sindex s ≠ .error TransError.aborted :=
      fun e he s => hnoab e (by simp [he]) s
    have hshort : ¬ (trimChars el.origText).length < 3 := by omega
    by_cases hTr : el.translation.isSome
    · have hstep : translateChapterLoop apiAt cfg writeOk bookId chIdx abortAtTop total st count (el :: rest)
          = (el :: (translateChapterLoop apiAt cfg writeOk bookId chIdx abortAtTop total st (count + 1) rest).1,
             (translateChapterLoop apiAt cfg writeOk bookId chIdx abortAtTop total st (count + 1) rest).2.1,
             (count + 1, total) :: (translateChapterLoop apiAt cfg writeOk bookId chIdx abortAtTop total st (count + 1) rest).2.2.1,
             (translateChapterLoop apiAt cfg writeOk bookId chIdx abortAtTop total st (count + 1) rest).2.2.2) := by
        simp [translateChapterLoop, htop, hTr]
      obtain ⟨ihlen, ihev, ihzip⟩ := ih st (count + 1) hlenR hnoabR
      rw [hstep]
      refine ⟨by simp [ihlen], ?_, ?_⟩
      · simp only [List.length_cons, progress_range_succ, ihev]
      · intro pr hpr
        rw [List.zip_cons_cons] at hpr
        rcases List.mem_cons.mp hpr with heq | hmem
        · subst heq
          intro h1 h2
          exact absurd h1 h2
        · exact ihzip pr hmem
    · cases hp : translateParagraph (apiAt el.pindex el.sindex) cfg st writeOk
          (trimChars el.origText) bookId chIdx (cacheIdOf el.pindex el.sindex) with
      | ok pair =>
        obtain ⟨t, st2⟩ := pair
        have hstep : translateChapterLoop apiAt cfg writeOk bookId chIdx abortAtTop total st count (el :: rest)
            = ({ el with translation := some t, errorMsg := none }
                 :: (translateChapterLoop apiAt cfg writeOk bookId chIdx abortAtTop total st2 (count + 1) rest).1,
               (translateChapterLoop apiAt cfg writeOk bookId chIdx abortAtTop total st2 (count + 1) rest).2.1,
               (count + 1, total) :: (translateChapterLoop apiAt cfg writeOk bookId chIdx abortAtTop total st2 (count + 1) rest).2.2.1,
               (translateChapterLoop apiAt cfg writeOk bookId chIdx abortAtTop total st2 (count + 1) rest).2.2.2) := by
          simp [translateChapterLoop, htop, hTr, hshort, hp]
        obtain ⟨ihlen, ihev, ihzip⟩ := ih st2 (count + 1) hlenR hnoabR
        rw [hstep]
        refine ⟨by simp [ihlen], ?_, ?_⟩
        · simp only [List.length_cons, progress_range_succ, ihev]
        · intro pr hpr
          rw [List.zip_cons_cons] at hpr
          rcases List.mem_cons.mp hpr with heq | hmem
          · subst heq
            intro _ h2
            exact absurd rfl h2
          · exact ihzip pr hmem
      | error e =>
        cases e with
        | aborted =>
          exfalso
          rcases translateParagraph_err hp with hc | hapi
          · cases hc
          · rw [trimChars_idem] at hapi
            exact hnoab0 (trimChars el.origText) hapi
        | config =>
          have hstep : translateChapterLoop apiAt cfg writeOk bookId chIdx abortAtTop total st count (el :: rest)
              = ({ el with errorMsg := some (("翻译失败: ").data ++ TransError.message TransError.config) }
                   :: (translateChapterLoop apiAt cfg writeOk bookId chIdx abortAtTop total st (count + 1) rest).1,
                 (translateChapterLoop apiAt cfg writeOk bookId chIdx abortAtTop total st (count + 1) rest).2.1,
                 (count + 1, total) :: (translateChapterLoop apiAt cfg writeOk bookId chIdx abortAtTop total st (count + 1) rest).2.2.1,
                 (translateChapterLoop apiAt cfg writeOk bookId chIdx abortAtTop total st (count + 1) rest).2.2.2) := by
            simp [translateChapterLoop, htop, hTr, hshort, hp]
          obtain ⟨ihlen, ihev, ihzip⟩ := ih st (count + 1) hlenR hnoabR
          rw [hstep]
          refine ⟨by simp [ihlen], ?_, ?_⟩
          · simp only [List.length_cons, progress_range_succ, ihev]
          · intro pr hpr
            rw [List.zip_cons_cons] at hpr
            rcases List.mem_cons.mp hpr with heq | hmem
            · subst heq
              intro _ _
              exact ⟨TransError.config, Or.inl rfl, rfl⟩
            · exact ihzip pr hmem
        | provider m =>
          have hstep : translateChapterLoop apiAt cfg writeOk bookId chIdx abortAtTop total st count (el :: rest)
              = ({ el with errorMsg := some (("翻译失败: ").data ++ TransError.message (TransError.provider m)) }
                   :: (translateChapterLoop apiAt cfg writeOk bookId chIdx abortAtTop total st (count + 1) rest).1,
                 (translateChapterLoop apiAt cfg writeOk bookId chIdx abortAtTop total st (count + 1) rest).2.1,
                 (count + 1, total) :: (translateChapterLoop apiAt cfg writeOk bookId chIdx abortAtTop total st (count + 1) rest).2.2.1,
                 (translateChapterLoop apiAt cfg writeOk bookId chIdx abortAtTop total st (count + 1) rest).2.2.2) := by
            simp [translateChapterLoop, htop, hTr, hshort, hp]
          obtain ⟨ihlen, ihev, ihzip⟩ := ih st (count + 1) hlenR hnoabR
          rw [hstep]
          refine ⟨by simp [ihlen], ?_, ?_⟩
          · simp only [List.length_cons, progress_range_succ, ihev]
          · intro pr hpr
            rw [List.zip_cons_cons] at hpr
            rcases List.mem_cons.mp hpr with heq | hmem
            · subst heq
              intro _ _
              refine ⟨TransError.provider m, Or.inr ?_, rfl⟩
              rcases translateParagraph_err hp with hc | hapi
              · cases hc
              · rw [trimChars_idem] at hapi
                exact hapi
            · exact ihzip pr hmem

/-- Book-chapter paragraph runs that are never cancelled (neither at a loop
head nor inside a call) always complete with one output record per input
paragraph, whatever per-paragraph errors occur. -/
theorem translateChapterParas_ok
    (apiAt : Nat → List Char → Except TransError (List Char))
    (cfg : Config) (writeOk : Bool) (bookId : List Char) (chIdx : Nat)
    (parAborted : Nat → Bool)
    (htop : ∀ i, parAborted i = false)
    (hnoab : ∀ i s, apiAt i s ≠ .error TransError.aborted) :
    ∀ (paras : List Para) (st : Store) (pi : Nat), ∃ l st2,
      translateChapterParas apiAt cfg writeOk bookId chIdx parAborted st pi paras = .ok (l, st2)
      ∧ l.length = paras.length := by
  intro paras
  induction paras with
  | nil => intro st pi; exact ⟨[], st, rfl, rfl⟩
  | cons p rest ih =>
    intro st pi
    by_cases himg : p.isImage
    · obtain ⟨l, st2, hrec, hl⟩ := ih st (pi + 1)
      refine ⟨⟨p.html, none, true, none⟩ :: l, st2, ?_, by simp [hl]⟩
      simp [translateChapterParas, htop, himg, hrec]
    · by_cases hshort : (trimChars p.text).length < 3
      · obtain ⟨l, st2, hrec, hl⟩ := ih st (pi + 1)
        refine ⟨⟨p.html, none, false, none⟩ :: l, st2, ?_, by simp [hl]⟩
        simp [translateChapterParas, htop, himg, hshort, hrec]
      · cases hp : translateParagraph (apiAt pi) cfg st writeOk p.text bookId chIdx (natStr pi) with
        | ok pair =>
          obtain ⟨t, st2⟩ := pair
          obtain ⟨l, st3, hrec, hl⟩ := ih st2 (pi + 1)
          refine ⟨⟨p.html, some t, false, some p.tag⟩ :: l, st3, ?_, by simp [hl]⟩
          simp [translateChapterParas, htop, himg, hshort, hp, hrec]
        | error e =>
          cases e with
          | aborted =>
            exfalso
            rcases translateParagraph_err hp with hc | hapi
            · cases hc
            · exact hnoab pi (trimChars p.text) hapi
          | config =>
            obtain ⟨l, st3, hrec, hl⟩ := ih st (pi + 1)
            refine ⟨⟨p.html, some (failMarker TransError.config), false, some p.tag⟩ :: l, st3, ?_,
              by simp [hl]⟩
            simp [translateChapterParas, htop, himg, hshort, hp, hrec]
          | provider m =>
            obtain ⟨l, st3, hrec, hl⟩ := ih st (pi + 1)
            refine ⟨⟨p.html, some (failMarker (TransError.provider m)), false, some p.tag⟩ :: l, st3, ?_,
              by simp [hl]⟩
            simp [translateChapterParas, htop, himg, hshort, hp, hrec]

/-- Global single-character replacement distributes over append. -/
theorem replaceChar_append (c : Char) (rep : List Char) (a b : List Char) :
    replaceChar c rep (a ++ b) = replaceChar c rep a ++ replaceChar c rep b := by
  induction a with
  | nil => rfl
  | cons x xs ih => simp [replaceChar, ih]

/-- The XML escaper distributes over append. -/
theorem escapeXml_append (a b : List Char) :
    escapeXml (a ++ b) = escapeXml a ++ escapeXml b := by
  simp [escapeXml, replaceChar_append]

/-- On a single character the XML escaper produces exactly that character's
entity: the four sequential replacements neither miss a special character
nor escape an already produced entity twice. -/
theorem escapeXml_singleton (c : Char) : escapeXml [c] = xmlEntityOf c := by
  by_cases h1 : c = '&'
  · subst h1; rfl
  · by_cases h2 : c = '<'
    · subst h2; rfl
    · by_cases h3 : c = '>'
      · subst h3; rfl
      · by_cases h4 : c = '"'
        · subst h4; rfl
        · simp [escapeXml, replaceChar, xmlEntityOf, h1, h2, h3, h4]

/-- The sequential escaper agrees with the one-pass specification escaper. -/
theorem escapeXml_eq_spec (s : List Char) : escapeXml s = escapeXmlSpec s := by
  induction s with
  | nil => rfl
  | cons c rest ih =>
    have : (c :: rest) = [c] ++ rest := rfl
    rw [this, escapeXml_append, escapeXml_singleton, ih]
    simp [escapeXmlSpec]

/-! Claim theorems. -/

/-- Claim C1, counterexample: the progress callback is NOT invoked exactly
once per unit. A one-unit chapter whose only unit is too short to
translate (under 3 characters) silently increments the completed count
without any `onProgress` call, so the number of progress events differs
from the number of units. -/
theorem c1_progress_counterexample :
    (translateChapterLoop (fun _ _ _ => Except.ok (("T").data)) ⟨("k").data, ("m").data⟩ true
      (("b").data) 0 (fun _ => false) 1 [] 0
      [⟨0, 0, ("Hi").data, none, none⟩]).2.2.1.length ≠ 1 := by
  decide

/-- Claim C1 (amended): over a chapter run that is never cancelled and whose
units all have trimmed length at least 3 (so no unit hits the silent
too-short skip), the run processes every unit, the progress callback is
invoked exactly once per unit with strictly increasing completed counts
`1, 2, ..., n`, and a unit carries a failure marker only if its own
translation attempt failed (configuration error or an error of its own
call) — in particular a provider error on one unit does not stop the
processing of the remaining units. -/
theorem c1_progress_amended
    (apiAt : Nat → Nat → List Char → Except TransError (List Char))
    (cfg : Config) (writeOk : Bool) (bookId : List Char) (chIdx : Nat)
    (abortAtTop : Nat → Bool) (total : Nat) (els : List SentenceEl) (st : Store)
    (htop : ∀ i, abortAtTop i = false)
    (hlen : ∀ el ∈ els, 3 ≤ (trimChars el.origText).length)
    (hnoab : ∀ el ∈ els, ∀ s, apiAt el.pindex el.sindex s ≠ .error TransError.aborted) :
    (translateChapterLoop apiAt cfg writeOk bookId chIdx abortAtTop total st 0 els).1.length = els.length
    ∧ (translateChapterLoop apiAt cfg writeOk bookId chIdx abortAtTop total st 0 els).2.2.1
        = (List.range els.length).map (fun i => (i + 1, total))
    ∧ ∀ pr ∈ els.zip (translateChapterLoop apiAt cfg writeOk bookId chIdx abortAtTop total st 0 els).1,
        pr.1.errorMsg = none → pr.2.errorMsg ≠ none →
        ∃ e, (e = TransError.config
              ∨ apiAt pr.1.pindex pr.1.sindex (trimChars pr.1.origText) = .error e)
          ∧ pr.2.errorMsg = some (("翻译失败: ").data ++ TransError.message e) := by
  obtain ⟨h1, h2, h3⟩ := translateChapterLoop_complete apiAt cfg writeOk bookId chIdx
    abortAtTop total htop els st 0 hlen hnoab
  refine ⟨h1, ?_, h3⟩
  rw [h2]
  apply List.map_congr_left
  intro a _
  show (0 + 1 + a, total) = (a + 1, total)
  congr 1
  omega

/-- Witness for the amended claim C1: a five-unit run in which unit 3's call
fails with a provider error still reports progress five times with counts
1..5 and marks exactly unit 3 as failed. -/
theorem c1_progress_amended_witness :
    ((translateChapterLoop apiFive ⟨("k").data, ("m").data⟩ true (("b").data) 0 (fun _ => false) 5 [] 0 elsFive).1.length = elsFive.length
     ∧ (translateChapterLoop apiFive ⟨("k").data, ("m").data⟩ true (("b").data) 0 (fun _ => false) 5 [] 0 elsFive).2.2.1
         = (List.range elsFive.length).map (fun i => (i + 1, 5))
     ∧ ∀ pr ∈ elsFive.zip (translateChapterLoop apiFive ⟨("k").data, ("m").data⟩ true (("b").data) 0 (fun _ => false) 5 [] 0 elsFive).1,
         pr.1.errorMsg = none → pr.2.errorMsg ≠ none →
         ∃ e, (e = TransError.config
               ∨ apiFive pr.1.pindex pr.1.sindex (trimChars pr.1.origText) = .error e)
           ∧ pr.2.errorMsg = some (("翻译失败: ").data ++ TransError.message e))
    ∧ (translateChapterLoop apiFive ⟨("k").data, ("m").data⟩ true (("b").data) 0 (fun _ => false) 5 [] 0 elsFive).2.2.1
        = [(1, 5), (2, 5), (3, 5), (4, 5), (5, 5)]
    ∧ (translateChapterLoop apiFive ⟨("k").data, ("m").data⟩ true (("b").data) 0 (fun _ => false) 5 [] 0 elsFive).1.map SentenceEl.errorMsg
        = [none, none, some (("翻译失败: boom").data), none, none] :=
  ⟨c1_progress_amended apiFive ⟨("k").data, ("m").data⟩ true (("b").data) 0 (fun _ => false) 5 elsFive []
      (fun _ => rfl) (by decide)
      (by
        intro el _ s
        simp only [apiFive]
        split
        · simp
        · simp),
    by decide, by decide⟩

/-- Claim C2: if cancellation fires during the in-flight translation call of
a unit, the chapter run stops immediately with that unit and all later
units left untouched, no cache entry written for the aborted unit (the
store is returned unchanged), and no further progress events. -/
theorem c2_cancel_stops_run
    (apiAt : Nat → Nat → List Char → Except TransError (List Char))
    (cfg : Config) (writeOk : Bool) (bookId : List Char) (chIdx : Nat)
    (abortAtTop : Nat → Bool) (total : Nat) (st : Store) (count : Nat)
    (el : SentenceEl) (rest : List SentenceEl)
    (htop : abortAtTop count = false)
    (hnotr : el.translation = none)
    (hlen : 3 ≤ (trimChars el.origText).length)
    (hmiss : storeGet st (getCacheKey cfg bookId chIdx (cacheIdOf el.pindex el.sindex)) = none)
    (hk : cfg.apiKey ≠ []) (hm : cfg.model ≠ [])
    (habort : apiAt el.pindex el.sindex (trimChars el.origText) = .error TransError.aborted) :
    translateChapterLoop apiAt cfg writeOk bookId chIdx abortAtTop total st count (el :: rest)
      = (el :: rest, st, [], count) := by
  have hpe : translateParagraph (apiAt el.pindex el.sindex) cfg st writeOk
      (trimChars el.origText) bookId chIdx (cacheIdOf el.pindex el.sindex)
      = .error TransError.aborted := by
    apply translateParagraph_err_eq
    · rw [trimChars_idem]; exact hlen
    · exact hmiss
    · exact hk
    · exact hm
    · rw [trimChars_idem]; exact habort
  have hshort : ¬ (trimChars el.origText).length < 3 := by omega
  simp [translateChapterLoop, htop, hnotr, hshort, hpe]

/-- Witness for claim C2: a two-unit run whose first call is aborted
returns both elements untranslated, the empty store unchanged, and no
progress events. -/
theorem c2_cancel_stops_run_witness :
    translateChapterLoop (fun _ _ _ => Except.error TransError.aborted)
        ⟨("k").data, ("m").data⟩ true (("b").data) 0 (fun _ => false) 2 [] 0
        [⟨0, 0, ("Hello world").data, none, none⟩, ⟨0, 1, ("Another one here").data, none, none⟩]
      = ([⟨0, 0, ("Hello world").data, none, none⟩, ⟨0, 1, ("Another one here").data, none, none⟩],
         [], [], 0) :=
  c2_cancel_stops_run (fun _ _ _ => Except.error TransError.aborted)
    ⟨("k").data, ("m").data⟩ true (("b").data) 0 (fun _ => false) 2 [] 0
    ⟨0, 0, ("Hello world").data, none, none⟩ [⟨0, 1, ("Another one here").data, none, none⟩]
    rfl rfl (by decide) rfl (by decide) (by decide) rfl

/-- Claim C3: for every title and chapter sequence, the EPUB produced by the
exporter starts with an uncompressed `mimetype` entry whose content is
exactly `application/epub+zip`, its package manifest has exactly one item
per input chapter, and the manifest also contains the navigation-document
item. -/
theorem c3_epub_wellformed (title : List Char) (chs : List BiChapter)
    (nowMs : Nat) (iso : List Char) :
    (buildBilingualEPUB title chs nowMs iso).head?
        = some ⟨("mimetype").data, ("application/epub+zip").data, true⟩
    ∧ ((chapterFiles chs).map manifestItemLine).length = chs.length
    ∧ ∃ pre post, opfContent title chs nowMs iso = pre ++ navItemLine ++ post := by
  refine ⟨rfl, ?_, ?_⟩
  · simp [chapterFiles]
  · refine ⟨("<?xml version=\"1.0\" encoding=\"UTF-8\"?>\n<package xmlns=\"http://www.idpf.org/2007/opf\" version=\"3.0\" unique-identifier=\"uid\">\n  <metadata xmlns:dc=\"http://purl.org/dc/elements/1.1/\">\n    <dc:identifier id=\"uid\">biread-").data ++
        natStr nowMs ++ ("</dc:identifier>\n    <dc:title>").data ++ escapeXml title ++
        (" (双语版)</dc:title>\n    <dc:language>zh</dc:language>\n    <dc:creator>BiRead Translation</dc:creator>\n    <meta property=\"dcterms:modified\">").data ++
        iso ++ ("Z</meta>\n  </metadata>\n  <manifest>\n    <item id=\"css\" href=\"style.css\" media-type=\"text/css\" />\n").data,
      ("\n").data ++ List.intercalate (("\n").data) ((chapterFiles chs).map manifestItemLine) ++
        ("\n  </manifest>\n  <spine>\n").data ++
        List.intercalate (("\n").data) ((chapterFiles chs).map spineItemLine) ++
        ("\n  </spine>\n</package>").data, ?_⟩
    simp only [opfContent, List.append_assoc]

/-- Claim C4, counterexample: on the spec's own test sentence (padded past
the 80-character threshold) the splitter does NOT yield exactly two
sentences, because `Mt` is absent from the abbreviation list and the
period of `Mt.` is treated as a sentence terminator. -/
theorem c4_splitter_counterexample :
    (splitSentences (("Dr. Smith arrived at exactly 3.14pm in the afternoon near the famous Mt. Fuji. He left.").data)).length ≠ 2 := by
  decide

/-- Claim C4 (amended): on the padded test sentence the splitter does not
break after `Dr.` nor inside `3.14`, breaks after `Fuji.` and after
`left.`, but also breaks after `Mt.` (not a known abbreviation), yielding
exactly three sentences. -/
theorem c4_splitter_amended :
    splitSentences (("Dr. Smith arrived at exactly 3.14pm in the afternoon near the famous Mt. Fuji. He left.").data)
      = [("Dr. Smith arrived at exactly 3.14pm in the afternoon near the famous Mt.").data,
         ("Fuji.").data,
         ("He left.").data] := by
  decide

/-- Claim C5: during full-book translation, a paragraph whose call fails
with a provider error has its translation replaced by the inline failure
marker, and the chapter run still completes with one output record per
paragraph — the export is never aborted by a single paragraph failure. -/
theorem c5_paragraph_failure_marker
    (apiAt : Nat → List Char → Except TransError (List Char))
    (cfg : Config) (writeOk : Bool) (bookId : List Char) (chIdx : Nat)
    (parAborted : Nat → Bool) (st : Store) (pi : Nat) (p : Para) (rest : List Para)
    (m : List Char)
    (htop : ∀ i, parAborted i = false)
    (hnoab : ∀ i s, apiAt i s ≠ .error TransError.aborted)
    (himg : p.isImage = false)
    (hlen : 3 ≤ (trimChars p.text).length)
    (hmiss : storeGet st (getCacheKey cfg bookId chIdx (natStr pi)) = none)
    (hk : cfg.apiKey ≠ []) (hm : cfg.model ≠ [])
    (hfail : apiAt pi (trimChars p.text) = .error (TransError.provider m)) :
    ∃ l st2,
      translateChapterParas apiAt cfg writeOk bookId chIdx parAborted st pi (p :: rest)
        = .ok (⟨p.html, some (failMarker (TransError.provider m)), false, some p.tag⟩ :: l, st2)
      ∧ l.length = rest.length := by
  have hpe : translateParagraph (apiAt pi) cfg st writeOk p.text bookId chIdx (natStr pi)
      = .error (TransError.provider m) :=
    translateParagraph_err_eq hlen hmiss hk hm hfail
  obtain ⟨l, st2, hrec, hl⟩ :=
    translateChapterParas_ok apiAt cfg writeOk bookId chIdx parAborted htop hnoab rest st (pi + 1)
  refine ⟨l, st2, ?_, hl⟩
  have hshort : ¬ (trimChars p.text).length < 3 := by omega
  simp [translateChapterParas, htop, himg, hshort, hpe, hrec]

/-- Witness for claim C5: a two-paragraph chapter whose first paragraph's
call fails with a provider error yields the failure marker for that
paragraph and still emits the second paragraph's record. -/
theorem c5_paragraph_failure_marker_witness :
    ∃ l st2,
      translateChapterParas apiBook ⟨("k").data, ("m").data⟩ true (("b").data) 0
          (fun _ => false) [] 0 parasTwo
        = .ok (⟨("<p>First paragraph.</p>").data,
               some (failMarker (TransError.provider (("offline").data))), false,
               some (("p").data)⟩ :: l, st2)
      ∧ l.length = [(⟨("<p>Second paragraph.</p>").data, ("Second paragraph.").data, ("p").data, false⟩ : Para)].length :=
  c5_paragraph_failure_marker apiBook ⟨("k").data, ("m").data⟩ true (("b").data) 0
    (fun _ => false) [] 0
    ⟨("<p>First paragraph.</p>").data, ("First paragraph.").data, ("p").data, false⟩
    [⟨("<p>Second paragraph.</p>").data, ("Second paragraph.").data, ("p").data, false⟩]
    (("offline").data)
    (fun _ => rfl)
    (by
      intro i s
      simp only [apiBook]
      split
      · simp
      · simp)
    rfl (by decide) rfl (by decide) (by decide) rfl

/-- Claim C6, counterexample: model names `Aa` and `BB` collide under the
32-bit string hash, so two puts at the same coordinates under these two
different model names share one cache key: the entries are not
independent, and after switching the active model from `BB` to `Aa` the
get returns the translation written under `BB` instead of absent. -/
theorem c6_model_key_counterexample :
    getCacheKey ⟨("k").data, ("Aa").data⟩ (("b").data) 0 (("0_0").data)
      = getCacheKey ⟨("k").data, ("BB").data⟩ (("b").data) 0 (("0_0").data)
    ∧ getFromCache ⟨("k").data, ("Aa").data⟩
        (saveToCache true ⟨("k").data, ("BB").data⟩
          (saveToCache true ⟨("k").data, ("Aa").data⟩ [] (("b").data) 0 (("0_0").data) (("v1").data))
          (("b").data) 0 (("0_0").data) (("v2").data))
        (("b").data) 0 (("0_0").data) = some (("v2").data) := by
  decide

/-- Claim C6 (amended): provided the two model names have different hashes
(true for typical distinct model names, but not universally — the 32-bit
hash admits collisions such as `Aa`/`BB`), puts under the two models
produce two independent cache entries, and after switching the active
model a get returns absent even though a translation exists under the
other model. -/
theorem c6_model_key_amended
    (cfg1 cfg2 : Config) (bookId paraId v1 v2 : List Char) (chIdx : Nat)
    (hne : hashString cfg1.model ≠ hashString cfg2.model) :
    getCacheKey cfg1 bookId chIdx paraId ≠ getCacheKey cfg2 bookId chIdx paraId
    ∧ storeGet (storeSet (storeSet [] (getCacheKey cfg1 bookId chIdx paraId) v1)
          (getCacheKey cfg2 bookId chIdx paraId) v2)
        (getCacheKey cfg1 bookId chIdx paraId) = some v1
    ∧ storeGet (storeSet (storeSet [] (getCacheKey cfg1 bookId chIdx paraId) v1)
          (getCacheKey cfg2 bookId chIdx paraId) v2)
        (getCacheKey cfg2 bookId chIdx paraId) = some v2
    ∧ getFromCache cfg2 (saveToCache true cfg1 [] bookId chIdx paraId v1)
        bookId chIdx paraId = none := by
  have hkk : getCacheKey cfg1 bookId chIdx paraId ≠ getCacheKey cfg2 bookId chIdx paraId := by
    intro h
    apply hne
    unfold getCacheKey at h
    exact List.append_cancel_left h
  refine ⟨hkk, ?_, ?_, ?_⟩
  · simp [storeGet, storeSet, Ne.symm hkk]
  · simp [storeGet, storeSet]
  · simp [getFromCache, saveToCache, storeGet, storeSet, hkk]

/-- Witness for the amended claim C6 at model names `a` and `b`, whose
hashes differ. -/
theorem c6_model_key_amended_witness :
    getCacheKey ⟨("k").data, ("a").data⟩ (("b").data) 0 (("0_0").data)
        ≠ getCacheKey ⟨("k").data, ("b").data⟩ (("b").data) 0 (("0_0").data)
    ∧ storeGet (storeSet (storeSet [] (getCacheKey ⟨("k").data, ("a").data⟩ (("b").data) 0 (("0_0").data)) (("v1").data))
          (getCacheKey ⟨("k").data, ("b").data⟩ (("b").data) 0 (("0_0").data)) (("v2").data))
        (getCacheKey ⟨("k").data, ("a").data⟩ (("b").data) 0 (("0_0").data)) = some (("v1").data)
    ∧ storeGet (storeSet (storeSet [] (getCacheKey ⟨("k").data, ("a").data⟩ (("b").data) 0 (("0_0").data)) (("v1").data))
          (getCacheKey ⟨("k").data, ("b").data⟩ (("b").data) 0 (("0_0").data)) (("v2").data))
        (getCacheKey ⟨("k").data, ("b").data⟩ (("b").data) 0 (("0_0").data)) = some (("v2").data)
    ∧ getFromCache ⟨("k").data, ("b").data⟩
        (saveToCache true ⟨("k").data, ("a").data⟩ [] (("b").data) 0 (("0_0").data) (("v1").data))
        (("b").data) 0 (("0_0").data) = none :=
  c6_model_key_amended ⟨("k").data, ("a").data⟩ ⟨("k").data, ("b").data⟩
    (("b").data) (("0_0").data) (("v1").data) (("v2").data) 0 (by decide)

/-- Claim C7: a cache put followed by a get for the same unit identity under
the same active configuration returns the stored translation, and a get
on a store holding nothing returns absent. -/
theorem c7_cache_round_trip (cfg : Config) (st : Store)
    (bookId paraId v : List Char) (chIdx : Nat) :
    getFromCache cfg (saveToCache true cfg st bookId chIdx paraId v) bookId chIdx paraId = some v
    ∧ getFromCache cfg [] bookId chIdx paraId = none := by
  constructor
  · simp [getFromCache, saveToCache, storeSet, storeGet]
  · rfl

/-- Claim C8, counterexample: a whitespace-only string trims to the empty
string and is below the 80-character threshold, yet the splitter returns
the empty list rather than one element equal to the trimmed input. -/
theorem c8_short_counterexample :
    splitSentences (("   ").data) ≠ [trimChars (("   ").data)] := by
  decide

/-- Claim C8 (amended): for every string whose trimmed text is non-empty and
shorter than the 80-character threshold, the splitter returns exactly one
element, the trimmed input; empty or whitespace-only strings instead
yield the empty list. -/
theorem c8_short_amended (s : List Char)
    (hne : trimChars s ≠ []) (hlen : (trimChars s).length < 80) :
    splitSentences s = [trimChars s] := by
  have hie : (trimChars s).isEmpty = false := by
    cases h : trimChars s with
    | nil => exact absurd h hne
    | cons a as => rfl
  simp [splitSentences, hie, hlen]

/-- Witness for the amended claim C8 on a short non-empty string. -/
theorem c8_short_amended_witness :
    trimChars (("  Hello world.  ").data) ≠ []
    ∧ (trimChars (("  Hello world.  ").data)).length < 80
    ∧ splitSentences (("  Hello world.  ").data) = [trimChars (("  Hello world.  ").data)] :=
  ⟨by decide, by decide, c8_short_amended (("  Hello world.  ").data) (by decide) (by decide)⟩

/-- Claim C9: a translated string interpolated into an exported chapter body
appears there escaped by `escapeXml`, and `escapeXml` replaces every
occurrence of the four characters ampersand, less-than, greater-than and
double quote by its entity (it agrees with the one-pass entity map, so
each of the four characters is escaped and nothing is escaped twice). -/
theorem c9_export_escaping (p : BiPara) (rest : List BiPara) (t : List Char)
    (himg : p.isImage = false) (ht : p.translation = some t) (hne : t ≠ []) :
    (∃ pre post, bodyOf (p :: rest) = pre ++ escapeXml t ++ post)
    ∧ escapeXml t = escapeXmlSpec t := by
  constructor
  · obtain ⟨c, cs, rfl⟩ : ∃ c cs, t = c :: cs := by
      cases t with
      | nil => exact absurd rfl hne
      | cons c cs => exact ⟨c, cs, rfl⟩
    refine ⟨("<div class=\"bi-block\">\n  <div class=\"bi-original\">").data ++ p.original ++
        ("</div>\n  <div class=\"bi-trans\">").data,
      ("</div>\n</div>\n").data ++ bodyOf rest, ?_⟩
    simp [bodyOf, biBlock, himg, ht, List.append_assoc]
  · exact escapeXml_eq_spec t

/-- Witness for claim C9 on the translation `<script>&"`: it appears in the
body escaped, and its escape is exactly `&lt;script&gt;&amp;&quot;`. -/
theorem c9_export_escaping_witness :
    ((∃ pre post,
        bodyOf (⟨("<p>x</p>").data, some (("<script>&\"").data), false, some (("p").data)⟩ :: ([] : List BiPara))
          = pre ++ escapeXml (("<script>&\"").data) ++ post)
      ∧ escapeXml (("<script>&\"").data) = escapeXmlSpec (("<script>&\"").data))
    ∧ escapeXml (("<script>&\"").data) = ("&lt;script&gt;&amp;&quot;").data :=
  ⟨c9_export_escaping ⟨("<p>x</p>").data, some (("<script>&\"").data), false, some (("p").data)⟩
      [] (("<script>&\"").data) rfl rfl (by decide),
    by decide⟩

/-- Claim C10: when the cache write after a successful translation call
fails (storage full), the failure is swallowed: `translateParagraph`
still returns the translation with no error, the store is unchanged, and
a later cache lookup for the same unit still misses, so a successful
translation does not guarantee a later cache hit. -/
theorem c10_swallowed_cache_write
    (api : List Char → Except TransError (List Char)) (cfg : Config) (st : Store)
    (text bookId : List Char) (chIdx : Nat) (paraId : List Char) (t : List Char)
    (hlen : 3 ≤ (trimChars text).length)
    (hmiss : storeGet st (getCacheKey cfg bookId chIdx paraId) = none)
    (hk : cfg.apiKey ≠ []) (hm : cfg.model ≠ [])
    (hapi : api (trimChars text) = .ok t) :
    translateParagraph api cfg st false text bookId chIdx paraId = .ok (t, st)
    ∧ getFromCache cfg st bookId chIdx paraId = none := by
  constructor
  · have h := translateParagraph_ok_eq (w := false) hlen hmiss hk hm hapi
    simpa [saveToCache] using h
  · exact hmiss

/-- Witness for claim C10 on a concrete unit with a failing cache write. -/
theorem c10_swallowed_cache_write_witness :
    translateParagraph (fun _ => Except.ok (("译").data)) ⟨("k").data, ("m").data⟩ [] false
        (("Hello world").data) (("b").data) 0 (("0").data)
      = .ok ((("译").data), [])
    ∧ getFromCache ⟨("k").data, ("m").data⟩ [] (("b").data) 0 (("0").data) = none :=
  c10_swallowed_cache_write (fun _ => Except.ok (("译").data)) ⟨("k").data, ("m").data⟩ []
    (("Hello world").data) (("b").data) 0 (("0").data) (("译").data)
    (by decide) rfl (by decide) (by decide) rfl

end BiRead
